import Mathlib

/-!
Verification development for the `binance` client library
(`binance/binance.py`).  The module is embedded shallowly: the process-wide
`OPTIONS` dictionary becomes an explicit state value threaded through the
functions, the network becomes an oracle `net : HttpRequest → PyVal` mapping
the issued request to the parsed JSON body, and the wall clock
(`int(time.time() * 1000)`) becomes an explicit parameter `t : Nat`.
Parsed JSON values and the Python values derived from them are modelled by
`PyVal`.  Parameter mappings sent to the exchange are modelled as
string-keyed dictionaries with string values (`urlencode` stringifies every
value before encoding; every call-site in scope passes strings).
-/

namespace BinanceSpec

/-- A Python `dict` with string keys and string values, in insertion order. -/
abbrev Dict := List (String × String)

/-- `k in d` for a Python string dict. -/
def dictHasKey (d : Dict) (k : String) : Bool :=
  d.any (fun kv => kv.1 == k)

/-- `d[k]`, with a default for the (guarded) missing case. -/
def dictGetD (d : Dict) (k : String) (dflt : String) : String :=
  match d.find? (fun kv => kv.1 == k) with
  | some kv => kv.2
  | none => dflt

/-- `d[k] = v`: replaces the value in place if the key exists, else appends. -/
def dictSet (d : Dict) (k v : String) : Dict :=
  if dictHasKey d k then d.map (fun kv => if kv.1 == k then (k, v) else kv)
  else d ++ [(k, v)]

/-- `d.update(kvs)`: assign each pair of `kvs` in order. -/
def dictUpdate (d : Dict) (kvs : Dict) : Dict :=
  kvs.foldl (fun acc kv => dictSet acc kv.1 kv.2) d

/-- `binance.set(api_key, secret)`: writes both credential entries of the
process-wide `OPTIONS` dictionary (here: the explicit state `w`). -/
def set (w : Dict) (api_key secret : String) : Dict :=
  dictSet (dictSet w "apiKey" api_key) "secret" secret

/-! ### UTF-8 and `urllib.parse.quote_plus` / `urlencode` -/

/-- UTF-8 encoding of one character (code point), as bytes. -/
def utf8Char (c : Char) : List Nat :=
  let n := c.toNat
  if n < 128 then [n]
  else if n < 2048 then [192 + n / 64, 128 + n % 64]
  else if n < 65536 then [224 + n / 4096, 128 + n / 64 % 64, 128 + n % 64]
  else [240 + n / 262144, 128 + n / 4096 % 64, 128 + n / 64 % 64, 128 + n % 64]

/-- `s.encode("utf-8")` as a list of byte values. -/
def strBytes (s : String) : List Nat :=
  (s.data.map utf8Char).flatten

/-- Upper-case hex digit, as produced by percent-encoding (`%02X`). -/
def hexUpperChar (n : Nat) : Char :=
  if n < 10 then Nat.digitChar n else Char.ofNat (55 + n)

/-- Bytes left alone by `quote_plus`: ASCII alphanumerics and `_.-~`. -/
def safeByte (b : Nat) : Bool :=
  (65 ≤ b && b ≤ 90) || (97 ≤ b && b ≤ 122) || (48 ≤ b && b ≤ 57) ||
    b == 45 || b == 46 || b == 95 || b == 126

/-- Encoding of one byte under `quote_plus`: safe bytes kept, space becomes
`+`, everything else percent-encoded with upper-case hex. -/
def quoteByte (b : Nat) : String :=
  if safeByte b then String.mk [Char.ofNat b]
  else if b == 32 then "+"
  else String.mk ['%', hexUpperChar (b / 16 % 16), hexUpperChar (b % 16)]

/-- `urllib.parse.quote_plus` over the UTF-8 bytes of `s`. -/
def quote_plus (s : String) : String :=
  String.join ((strBytes s).map quoteByte)

/-- `urllib.parse.urlencode` on a list of pairs: `k=v` joined by `&`,
both sides quoted with `quote_plus`. -/
def urlencode (pairs : Dict) : String :=
  String.intercalate "&" (pairs.map (fun kv => quote_plus kv.1 ++ "=" ++ quote_plus kv.2))

/-! ### `sorted(params.items())`

Python `sorted` on key/value tuples is a stable sort under tuple comparison
(first the keys, then — only for equal keys — the values).  A stable sort
under a total transitive relation has a unique result, so Mathlib's
`List.insertionSort` (also stable) is an exact model. -/

/-- Python tuple comparison on `(key, value)` pairs. -/
def pairLe (a b : String × String) : Prop :=
  a.1 < b.1 ∨ (a.1 = b.1 ∧ a.2 ≤ b.2)

instance : DecidableRel pairLe := fun a b => by
  unfold pairLe; infer_instance

instance : IsTotal (String × String) pairLe := by
  constructor
  intro a b
  rcases lt_trichotomy a.1 b.1 with h | h | h
  · exact Or.inl (Or.inl h)
  · rcases le_total a.2 b.2 with h2 | h2
    · exact Or.inl (Or.inr ⟨h, h2⟩)
    · exact Or.inr (Or.inr ⟨h.symm, h2⟩)
  · exact Or.inr (Or.inl h)

instance : IsTrans (String × String) pairLe := by
  constructor
  intro a b c hab hbc
  rcases hab with h | ⟨he, h2⟩ <;> rcases hbc with h' | ⟨he', h2'⟩
  · exact Or.inl (h.trans h')
  · exact Or.inl (lt_of_lt_of_le h (le_of_eq he'))
  · exact Or.inl (lt_of_le_of_lt (le_of_eq he) h')
  · exact Or.inr ⟨he.trans he', h2.trans h2'⟩

/-- `sorted(params.items())`. -/
def pySorted (l : Dict) : Dict :=
  List.insertionSort pairLe l

/-! ### SHA-256 and HMAC (executable, over byte lists) -/

/-- Truncation to a 32-bit word. -/
def w32 (x : Nat) : Nat := x % 4294967296

/-- Right rotation of a 32-bit word. -/
def rotr (n x : Nat) : Nat := w32 ((x >>> n) ||| (x <<< (32 - n)))

/-- 32-bit complement. -/
def bnot32 (x : Nat) : Nat := x ^^^ 4294967295

def bsig0 (x : Nat) : Nat := rotr 2 x ^^^ rotr 13 x ^^^ rotr 22 x

def bsig1 (x : Nat) : Nat := rotr 6 x ^^^ rotr 11 x ^^^ rotr 25 x

def ssig0 (x : Nat) : Nat := rotr 7 x ^^^ rotr 18 x ^^^ (x >>> 3)

def ssig1 (x : Nat) : Nat := rotr 17 x ^^^ rotr 19 x ^^^ (x >>> 10)

/-- The SHA-256 round constants (FIPS 180-4, written in decimal). -/
def shaK : List Nat :=
  [1116352408, 1899447441, 3049323471, 3921009573, 961987163,
   1508970993, 2453635748, 2870763221, 3624381080, 310598401,
   607225278, 1426881987, 1925078388, 2162078206, 2614888103,
   3248222580, 3835390401, 4022224774, 264347078, 604807628,
   770255983, 1249150122, 1555081692, 1996064986, 2554220882,
   2821834349, 2952996808, 3210313671, 3336571891, 3584528711,
   113926993, 338241895, 666307205, 773529912, 1294757372,
   1396182291, 1695183700, 1986661051, 2177026350, 2456956037,
   2730485921, 2820302411, 3259730800, 3345764771, 3516065817,
   3600352804, 4094571909, 275423344, 430227734, 506948616,
   659060556, 883997877, 958139571, 1322822218, 1537002063,
   1747873779, 1955562222, 2024104815, 2227730452, 2361852424,
   2428436474, 2756734187, 3204031479, 3329325298]

/-- The SHA-256 initial hash value (FIPS 180-4, written in decimal). -/
def shaH0 : List Nat :=
  [1779033703, 3144134277, 1013904242, 2773480762,
   1359893119, 2600822924, 528734635, 1541459225]

/-- Big-endian 8-byte encoding of the message bit length. -/
def lenBytes64 (n : Nat) : List Nat :=
  [(n >>> 56) % 256, (n >>> 48) % 256, (n >>> 40) % 256, (n >>> 32) % 256,
   (n >>> 24) % 256, (n >>> 16) % 256, (n >>> 8) % 256, n % 256]

/-- SHA-256 padding: `0x80`, zeros to 56 mod 64, then the bit length. -/
def padMsg (m : List Nat) : List Nat :=
  m ++ 128 :: List.replicate ((119 - m.length % 64) % 64) 0 ++ lenBytes64 (m.length * 8)

/-- Parse bytes into big-endian 32-bit words. -/
def toWords : List Nat → List Nat
  | b0 :: b1 :: b2 :: b3 :: rest => (((b0 * 256 + b1) * 256 + b2) * 256 + b3) :: toWords rest
  | _ => []

/-- Split into 64-byte blocks.  Each step consumes a nonempty list, so the
length of the input bounds the number of blocks and serves as fuel (the
recursion is structural on the fuel, which keeps the definition reducible
by the kernel). -/
def blocks64Go : Nat → List Nat → List (List Nat)
  | 0, _ => []
  | _, [] => []
  | fuel + 1, b :: l => ((b :: l).take 64) :: blocks64Go fuel ((b :: l).drop 64)

def blocks64 (l : List Nat) : List (List Nat) :=
  blocks64Go l.length l

/-- Extend sixteen schedule words to sixty-four.  At most 64 words are ever
appended, so 64 steps of fuel suffice. -/
def extendWGo : Nat → List Nat → List Nat
  | 0, w => w
  | fuel + 1, w =>
    if 64 ≤ w.length then w
    else extendWGo fuel (w ++ [w32 (ssig1 (w.getD (w.length - 2) 0) + w.getD (w.length - 7) 0 +
      ssig0 (w.getD (w.length - 15) 0) + w.getD (w.length - 16) 0)])

def extendW (w : List Nat) : List Nat :=
  extendWGo 64 w

/-- The eight working variables of the SHA-256 compression loop. -/
structure Sha8 where
  a : Nat
  b : Nat
  c : Nat
  d : Nat
  e : Nat
  f : Nat
  g : Nat
  h : Nat

/-- One round of the SHA-256 compression function. -/
def shaRound (s : Sha8) (kw : Nat × Nat) : Sha8 :=
  let t1 := w32 (s.h + bsig1 s.e + ((s.e &&& s.f) ^^^ (bnot32 s.e &&& s.g)) + kw.1 + kw.2)
  let t2 := w32 (bsig0 s.a + ((s.a &&& s.b) ^^^ (s.a &&& s.c) ^^^ (s.b &&& s.c)))
  ⟨w32 (t1 + t2), s.a, s.b, s.c, w32 (s.d + t1), s.e, s.f, s.g⟩

/-- Process one 64-byte block. -/
def shaBlock (hs : List Nat) (block : List Nat) : List Nat :=
  let ws := extendW (toWords block)
  let s0 : Sha8 := ⟨hs.getD 0 0, hs.getD 1 0, hs.getD 2 0, hs.getD 3 0,
    hs.getD 4 0, hs.getD 5 0, hs.getD 6 0, hs.getD 7 0⟩
  let s := (shaK.zip ws).foldl shaRound s0
  [w32 (hs.getD 0 0 + s.a), w32 (hs.getD 1 0 + s.b), w32 (hs.getD 2 0 + s.c),
   w32 (hs.getD 3 0 + s.d), w32 (hs.getD 4 0 + s.e), w32 (hs.getD 5 0 + s.f),
   w32 (hs.getD 6 0 + s.g), w32 (hs.getD 7 0 + s.h)]

/-- Big-endian bytes of a 32-bit word. -/
def wordBytes (w : Nat) : List Nat :=
  [(w >>> 24) % 256, (w >>> 16) % 256, (w >>> 8) % 256, w % 256]

/-- SHA-256 of a byte list, as 32 bytes. -/
def sha256 (m : List Nat) : List Nat :=
  (((blocks64 (padMsg m)).foldl shaBlock shaH0).map wordBytes).flatten

/-- `hmac.new(key, msg, hashlib.sha256).digest()` (block size 64). -/
def hmacSha256 (key msg : List Nat) : List Nat :=
  let k0 := if 64 < key.length then sha256 key else key
  let kp := k0 ++ List.replicate (64 - k0.length) 0
  sha256 ((kp.map (fun b => b ^^^ 92)) ++ sha256 ((kp.map (fun b => b ^^^ 54)) ++ msg))

/-- Lower-case hex of one byte. -/
def byteHex (b : Nat) : String :=
  String.mk [Nat.digitChar (b / 16 % 16), Nat.digitChar (b % 16)]

/-- `.hexdigest()`: lower-case hex of a byte list. -/
def hexdigest (bs : List Nat) : String :=
  String.join (bs.map byteHex)

/-! ### Parsed JSON / Python values -/

/-- A parsed JSON body, or a Python value derived from one.  JSON numbers
appear as integers here; no claim in scope depends on fractional numeric
values (the exchange serialises prices and quantities as strings). -/
inductive PyVal where
  | str (s : String)
  | int (n : Int)
  | bool (b : Bool)
  | none
  | list (xs : List PyVal)
  | dict (kvs : List (PyVal × PyVal))

mutual

/-- Structural equality of parsed-JSON values (Python `==` on them). -/
def pyBeq : PyVal → PyVal → Bool
  | .str a, .str b => a == b
  | .int a, .int b => a == b
  | .bool a, .bool b => a == b
  | .none, .none => true
  | .list xs, .list ys => pyBeqList xs ys
  | .dict xs, .dict ys => pyBeqPairs xs ys
  | _, _ => false

def pyBeqList : List PyVal → List PyVal → Bool
  | [], [] => true
  | x :: xs, y :: ys => pyBeq x y && pyBeqList xs ys
  | _, _ => false

def pyBeqPairs : List (PyVal × PyVal) → List (PyVal × PyVal) → Bool
  | [], [] => true
  | (k, v) :: xs, (l, u) :: ys => pyBeq k l && pyBeq v u && pyBeqPairs xs ys
  | _, _ => false

end

instance : BEq PyVal := ⟨pyBeq⟩

/-- Does `need` start `hay`? -/
def strStarts : List Char → List Char → Bool
  | _, [] => true
  | [], _ :: _ => false
  | h :: hs, n :: ns => h == n && strStarts hs ns

/-- Substring test on character lists (Python `needle in haystack` on `str`). -/
def strHasSub : List Char → List Char → Bool
  | [], need => need.isEmpty
  | h :: t, need => strStarts (h :: t) need || strHasSub t need

/-- Python `x in data` on the shapes parsed JSON can take: key membership
for dicts, element membership for lists, substring test for strings.  (On
the remaining scalar shapes `in` raises `TypeError`; no modelled call-site
reaches them and they are mapped to `false`.) -/
def pyContains (container x : PyVal) : Bool :=
  match container, x with
  | .dict kvs, k => kvs.any (fun kv => kv.1 == k)
  | .list xs, k => xs.any (fun v => v == k)
  | .str s, .str t => strHasSub s.data t.data
  | _, _ => false

/-- Lookup in a Python dict value. -/
def pyLookup (kvs : List (PyVal × PyVal)) (k : PyVal) : Option PyVal :=
  (kvs.find? (fun kv => kv.1 == k)).map Prod.snd

/-- `data[k]`: `TypeError` on non-dicts, `KeyError` when the key is absent. -/
def pyGetItem : PyVal → PyVal → Except String PyVal
  | .dict kvs, k =>
    match pyLookup kvs k with
    | some v => .ok v
    | Option.none => .error "KeyError"
  | _, _ => .error "TypeError"

/-- `data.get(k, dflt)`: `AttributeError` on non-dicts. -/
def pyGetM : PyVal → PyVal → PyVal → Except String PyVal
  | .dict kvs, k, dflt => .ok ((pyLookup kvs k).getD dflt)
  | _, _, _ => .error "AttributeError"

/-- Python dict insertion: replace the value in place, or append. -/
def pyDictSet (kvs : List (PyVal × PyVal)) (k v : PyVal) : List (PyVal × PyVal) :=
  if kvs.any (fun kv => kv.1 == k) then kvs.map (fun kv => if kv.1 == k then (k, v) else kv)
  else kvs ++ [(k, v)]

/-- A dict comprehension over a list of key/value pairs. -/
def pyDictOfPairs (l : List (PyVal × PyVal)) : List (PyVal × PyVal) :=
  l.foldl (fun acc kv => pyDictSet acc kv.1 kv.2) []

/-- `str(v)` on the scalar shapes.  These are the only shapes any modelled
call-site formats (`balances` formats the exchange's `msg` string);
container formatting is left unmodelled. -/
def pyStr : PyVal → String
  | .str s => s
  | .int n => toString n
  | .bool true => "True"
  | .bool false => "False"
  | .none => "None"
  | .list _ => ""
  | .dict _ => ""

/-! ### The two dispatchers -/

/-- An HTTP request as handed to `requests.request`: unsigned calls carry
their parameters in `query` (the `params=` keyword), signed calls embed
them in `url` and send the API key header. -/
structure HttpRequest where
  method : String
  url : String
  headers : List (String × String)
  query : Dict
deriving DecidableEq

/-- The fixed HTTPS origin. -/
def ENDPOINT : String := "https://api.binance.com"

/-- `request(method, path, params)` — the unsigned dispatcher: issue the
call, return the parsed JSON body unmodified. -/
def request (net : HttpRequest → PyVal) (method path : String) (params : Dict) : PyVal :=
  net ⟨method, ENDPOINT ++ path, [], params⟩

/-- The parameter part of the signed query:
`urlencode(sorted(params.items()))` (line 330). -/
def paramsQuery (params : Dict) : String := urlencode (pySorted params)

/-- Lines 330–335: the full signed query — sorted-and-encoded parameters,
the millisecond timestamp, then the HMAC-SHA256 hex digest of everything
so far. -/
def signedQuery (secret : List Nat) (params : Dict) (t : Nat) : String :=
  let query := paramsQuery params ++ "&timestamp=" ++ toString t
  query ++ "&signature=" ++ hexdigest (hmacSha256 secret (strBytes query))

/-- `signed_request(method, path, params)` (lines 326–340).  Returns the
call's result, the credential state after the call, and the list of
network requests issued. -/
def signed_request (w : Dict) (net : HttpRequest → PyVal) (method path : String)
    (params : Dict) (t : Nat) : Except String PyVal × Dict × List HttpRequest :=
  if !dictHasKey w "apiKey" || !dictHasKey w "secret" then
    (.error "Api key and secret must be set", w, [])
  else
    let query := signedQuery (strBytes (dictGetD w "secret" "")) params t
    let req : HttpRequest := ⟨method, ENDPOINT ++ path ++ "?" ++ query,
      [("X-MBX-APIKEY", dictGetD w "apiKey" "")], []⟩
    (.ok (net req), w, [req])

/-! ### Call-site wrappers the claims mention -/

/-- Sequential evaluation of a comprehension body over a list, stopping at
the first exception. -/
def exList {α β : Type} (f : α → Except String β) : List α → Except String (List β)
  | [] => .ok []
  | x :: xs => do
    let y ← f x
    let ys ← exList f xs
    pure (y :: ys)

/-- One entry of the `balances` comprehension. -/
def balanceEntry (d : PyVal) : Except String (PyVal × PyVal) := do
  let asset ← pyGetItem d (.str "asset")
  let free ← pyGetItem d (.str "free")
  let locked ← pyGetItem d (.str "locked")
  pure (asset, PyVal.dict [(.str "free", free), (.str "locked", locked)])

/-- The comprehension over `data.get("balances", [])`. -/
def buildBalances : PyVal → Except String PyVal
  | .list ds => do
    let pairs ← exList balanceEntry ds
    pure (.dict (pyDictOfPairs pairs))
  | _ => .error "TypeError"

/-- `balances()` (lines 100–109): raise `ValueError` when the response
carries the `msg` error indicator, else reshape `balances` (missing field:
empty list). -/
def balances (w : Dict) (net : HttpRequest → PyVal) (t : Nat) : Except String PyVal := do
  let data ← (signed_request w net "GET" "/api/v3/account" [] t).1
  if pyContains data (.str "msg") then
    match pyGetItem data (.str "msg") with
    | .ok m => .error ("Error from exchange: " ++ pyStr m)
    | .error e => .error e
  else do
    let bals ← pyGetM data (.str "balances") (.list [])
    buildBalances bals

/-- Unpacking `for px, qty, in ...`: each element must be a two-element
sequence. -/
def unpack2 : PyVal → Except String (PyVal × PyVal)
  | .list [p, q] => .ok (p, q)
  | _ => .error "ValueError"

/-- The dict comprehension over one side of the book. -/
def sideMap (side : PyVal) : Except String PyVal :=
  match side with
  | .list xs => do
    let pairs ← exList unpack2 xs
    pure (.dict (pyDictOfPairs pairs))
  | _ => .error "TypeError"

/-- `depth(symbol, **kwargs)` (lines 54–69). -/
def depth (net : HttpRequest → PyVal) (symbol : String) (kwargs : Dict) :
    Except String PyVal := do
  let params := dictUpdate [("symbol", symbol)] kwargs
  let data := request net "GET" "/api/v1/depth" params
  let bids ← pyGetItem data (.str "bids")
  let bidsMap ← sideMap bids
  let asks ← pyGetItem data (.str "asks")
  let asksMap ← sideMap asks
  pure (.dict [(.str "bids", bidsMap), (.str "asks", asksMap)])

/-! ### `format_number` and `spot_order` -/

/-- A Python float, in sign-and-magnitude form: the exact rational value of
a finite IEEE double (every finite double is a rational; `-0.0` carries
`neg = true` with magnitude `0`), or one of the non-finite values. -/
inductive PyFloat where
  | finite (neg : Bool) (mag : Rat)
  | inf
  | negInf
  | nan

/-- The inputs `format_number` distinguishes: floats versus everything else
(integers and strings at the call-sites). -/
inductive PyNumber where
  | float (x : PyFloat)
  | int (n : Int)
  | str (s : String)

/-- Round `mag * 10^8` to the nearest integer, ties to even — the correctly
rounded decimal conversion CPython performs for `%.8f`. -/
def rne8 (mag : Rat) : Nat :=
  let a := mag.num.toNat * 100000000
  let b := mag.den
  let n := a / b
  let r := a % b
  if 2 * r < b then n
  else if b < 2 * r then n + 1
  else if n % 2 = 0 then n else n + 1

/-- Decimal digit `i` (counting from the least significant) of `m`. -/
def digitOf (m i : Nat) : Char := Nat.digitChar (m / 10 ^ i % 10)

/-- The eight fractional digits, zero-padded, most significant first. -/
def frac8 (m : Nat) : String :=
  String.mk [digitOf m 7, digitOf m 6, digitOf m 5, digitOf m 4,
    digitOf m 3, digitOf m 2, digitOf m 1, digitOf m 0]

/-- `"{:.8f}".format(x)`. -/
def formatFixed8 : PyFloat → String
  | .inf => "inf"
  | .negInf => "-inf"
  | .nan => "nan"
  | .finite neg mag =>
    let n := rne8 mag
    (if neg then "-" else "") ++ toString (n / 100000000) ++ "." ++ frac8 (n % 100000000)

/-- `format_number(number)` (lines 342–349). -/
def format_number : PyNumber → String
  | .float x => formatFixed8 x
  | .int n => toString n
  | .str s => s

/-- The parameter dict built by the `order_type == "MARKET"` branch of
`spot_order` (lines 173–179). -/
def spotOrderParamsMarket (symbol side : String) (quantity : PyNumber)
    (order_type : String) : Dict :=
  [("symbol", symbol), ("side", side), ("type", order_type),
   ("quantity", format_number quantity)]

/-- The parameter dict built by the `else` branch of `spot_order`
(lines 180–186). -/
def spotOrderParamsElse (symbol side : String) (quantity : PyNumber)
    (order_type : String) : Dict :=
  [("symbol", symbol), ("side", side), ("type", order_type),
   ("quantity", format_number quantity)]

/-- `spot_order(symbol, side, quantity, order_type, test, **kwargs)`
(lines 155–191). -/
def spot_order (w : Dict) (net : HttpRequest → PyVal) (symbol side : String)
    (quantity : PyNumber) (order_type : String) (test : Bool) (kwargs : Dict)
    (t : Nat) : Except String PyVal × Dict × List HttpRequest :=
  let params :=
    if order_type == "MARKET" then spotOrderParamsMarket symbol side quantity order_type
    else spotOrderParamsElse symbol side quantity order_type
  let params := dictUpdate params kwargs
  let path := if test then "/api/v3/order/test" else "/api/v3/order"
  signed_request w net "POST" path params t

/-! ### Supporting lemmas -/

theorem dictHasKey_dictSet_self (d : Dict) (k v : String) :
    dictHasKey (dictSet d k v) k = true := by
  unfold dictSet
  split
  · next hk =>
    unfold dictHasKey at hk ⊢
    rw [List.any_map]
    rw [List.any_eq_true] at hk ⊢
    obtain ⟨kv, hmem, hkv⟩ := hk
    exact ⟨kv, hmem, by simp [Function.comp, hkv]⟩
  · unfold dictHasKey
    rw [List.any_append]
    simp

theorem dictHasKey_dictSet_mono (d : Dict) (k v j : String)
    (h : dictHasKey d j = true) : dictHasKey (dictSet d k v) j = true := by
  unfold dictSet
  split
  · unfold dictHasKey at h ⊢
    rw [List.any_map]
    rw [List.any_eq_true] at h ⊢
    obtain ⟨kv, hmem, hj⟩ := h
    refine ⟨kv, hmem, ?_⟩
    by_cases hek : (kv.1 == k) = true
    · have h1 : kv.1 = k := by simpa using hek
      have h2 : kv.1 = j := by simpa using hj
      have h3 : k = j := h1 ▸ h2
      simp [Function.comp, hek, h3, h2]
    · simp only [Bool.not_eq_true] at hek
      simp [Function.comp, hek, hj]
  · unfold dictHasKey at h ⊢
    rw [List.any_append]
    simp [h]

theorem exbind_ok {α β : Type} (a : α) (f : α → Except String β) :
    (do let x ← Except.ok a; f x) = f a := rfl

theorem pairLe_fst {a b : String × String} (h : pairLe a b) : a.1 ≤ b.1 := by
  rcases h with h | ⟨h, _⟩
  · exact le_of_lt h
  · exact le_of_eq h

theorem pyLookup_any {kvs : List (PyVal × PyVal)} {k v : PyVal}
    (h : pyLookup kvs k = some v) :
    kvs.any (fun kv => kv.1 == k) = true := by
  unfold pyLookup at h
  rw [List.any_eq_true]
  cases hf : kvs.find? (fun kv => kv.1 == k) with
  | none => rw [hf] at h; simp at h
  | some kv =>
    have hp := List.find?_some hf
    exact ⟨kv, List.mem_of_find?_eq_some hf, hp⟩

set_option maxRecDepth 10000

/-- FIPS 180-4 test vector: SHA-256 of `"abc"`. -/
theorem sha256_abc_vector :
    hexdigest (sha256 (strBytes "abc")) =
      "ba7816bf8f01cfea414140de5dae2223b00361a396177a9cb410ff61f20015ad" := by
  decide

/-- The worked signature example from the exchange's API documentation. -/
theorem hmac_binance_doc_vector :
    hexdigest (hmacSha256
        (strBytes "NhqPtmdSJYdKjVHjA7PZj4Mge3R5YNiP1e3UZjInClVN65XAbvqqM6A7H5fATj0j")
        (strBytes ("symbol=LTCBTC&side=BUY&type=LIMIT&timeInForce=GTC&quantity=1"
          ++ "&price=0.1&recvWindow=5000&timestamp=1499827319559"))) =
      "c8db56825ae71d6d79447849e617115f4a920fa2acdcab2b053c4b2838bd6b71" := by
  decide

/-! ### Claims -/

/-- **C1.** For every parameter mapping, method and path (credentials set),
`signed_request` issues exactly one request whose URL is
`ENDPOINT + path + "?" + query`, where `query` is the URL-encoding of the
parameter entries sorted by key, then `&timestamp=<t>`, then
`&signature=<hex digest>`, the digest being HMAC-SHA256 (keyed by the
stored secret) of exactly the query string up to and including the
timestamp field; the API key travels in a request header, not in the
query. -/
theorem signed_request_signing_scheme (w : Dict) (net : HttpRequest → PyVal)
    (method path : String) (params : Dict) (t : Nat)
    (hk : dictHasKey w "apiKey" = true) (hs : dictHasKey w "secret" = true) :
    ((pySorted params).map Prod.fst).Pairwise (· ≤ ·) ∧
    ((pySorted params).map Prod.fst).Perm (params.map Prod.fst) ∧
    ∃ req : HttpRequest,
      signed_request w net method path params t = (.ok (net req), w, [req]) ∧
      req.method = method ∧
      req.url = ENDPOINT ++ path ++ "?" ++
        (urlencode (pySorted params) ++ "&timestamp=" ++ toString t ++ "&signature=" ++
          hexdigest (hmacSha256 (strBytes (dictGetD w "secret" ""))
            (strBytes (urlencode (pySorted params) ++ "&timestamp=" ++ toString t)))) ∧
      req.headers = [("X-MBX-APIKEY", dictGetD w "apiKey" "")] ∧
      req.query = [] := by
  refine ⟨List.Pairwise.map Prod.fst (fun a b h => pairLe_fst h)
      (List.sorted_insertionSort pairLe params),
    (List.perm_insertionSort pairLe params).map Prod.fst, ?_⟩
  unfold signed_request
  rw [hk, hs]
  exact ⟨_, rfl, rfl, rfl, rfl, rfl⟩

theorem signed_request_signing_scheme_witness :
    dictHasKey [("apiKey", "key"), ("secret", "sec")] "apiKey" = true ∧
    dictHasKey [("apiKey", "key"), ("secret", "sec")] "secret" = true ∧
    ((pySorted [("b", "2"), ("a", "1")]).map Prod.fst).Pairwise (· ≤ ·) ∧
    ((pySorted [("b", "2"), ("a", "1")]).map Prod.fst).Perm
      ([("b", "2"), ("a", "1")].map Prod.fst) ∧
    ∃ req : HttpRequest,
      signed_request [("apiKey", "key"), ("secret", "sec")] (fun _ => PyVal.none)
          "GET" "/api/v3/account" [("b", "2"), ("a", "1")] 1499827319559 =
        (.ok ((fun _ => PyVal.none) req), [("apiKey", "key"), ("secret", "sec")], [req]) ∧
      req.method = "GET" ∧
      req.url = ENDPOINT ++ "/api/v3/account" ++ "?" ++
        (urlencode (pySorted [("b", "2"), ("a", "1")]) ++ "&timestamp=" ++
          toString 1499827319559 ++ "&signature=" ++
          hexdigest (hmacSha256
            (strBytes (dictGetD [("apiKey", "key"), ("secret", "sec")] "secret" ""))
            (strBytes (urlencode (pySorted [("b", "2"), ("a", "1")]) ++ "&timestamp=" ++
              toString 1499827319559)))) ∧
      req.headers =
        [("X-MBX-APIKEY", dictGetD [("apiKey", "key"), ("secret", "sec")] "apiKey" "")] ∧
      req.query = [] :=
  ⟨by decide, by decide,
    signed_request_signing_scheme [("apiKey", "key"), ("secret", "sec")]
      (fun _ => PyVal.none) "GET" "/api/v3/account" [("b", "2"), ("a", "1")]
      1499827319559 (by decide) (by decide)⟩

/-- **C8.** `signed_request` performs no local state mutation: the
credential state it passes on is the state it received, in the
error branch and in the normal branch alike. -/
theorem signed_request_preserves_state (w : Dict) (net : HttpRequest → PyVal)
    (method path : String) (params : Dict) (t : Nat) :
    (signed_request w net method path params t).2.1 = w := by
  unfold signed_request
  split <;> rfl

/-- **C9.** The two branches of `spot_order`'s conditional on
`order_type == "MARKET"` build identical parameter dicts, so the signed
dispatcher always receives the base mapping updated with the extra
options, and only the `test` flag selects the path. -/
theorem spot_order_branch_equivalence (w : Dict) (net : HttpRequest → PyVal)
    (symbol side order_type : String) (quantity : PyNumber) (test : Bool)
    (kwargs : Dict) (t : Nat) :
    spotOrderParamsMarket symbol side quantity order_type =
      spotOrderParamsElse symbol side quantity order_type ∧
    spot_order w net symbol side quantity order_type test kwargs t =
      signed_request w net "POST"
        (if test then "/api/v3/order/test" else "/api/v3/order")
        (dictUpdate [("symbol", symbol), ("side", side), ("type", order_type),
          ("quantity", format_number quantity)] kwargs) t := by
  refine ⟨rfl, ?_⟩
  unfold spot_order spotOrderParamsMarket spotOrderParamsElse
  rw [ite_self]

/-- **C2.** A signed call made while either credential is missing fails
with the configuration error and issues no network call; after `set`, both
credential entries are present and the same call proceeds, issuing exactly
one network call. -/
theorem signed_request_credential_gate (w : Dict) (net : HttpRequest → PyVal)
    (method path : String) (params : Dict) (t : Nat) (api_key secret : String) :
    ((dictHasKey w "apiKey" = false ∨ dictHasKey w "secret" = false) →
      signed_request w net method path params t =
        (.error "Api key and secret must be set", w, [])) ∧
    (dictHasKey (set w api_key secret) "apiKey" = true ∧
     dictHasKey (set w api_key secret) "secret" = true ∧
     ∃ req, signed_request (set w api_key secret) net method path params t =
       (.ok (net req), set w api_key secret, [req])) := by
  have hak : dictHasKey (set w api_key secret) "apiKey" = true :=
    dictHasKey_dictSet_mono _ _ _ _ (dictHasKey_dictSet_self w "apiKey" api_key)
  have hsk : dictHasKey (set w api_key secret) "secret" = true :=
    dictHasKey_dictSet_self (dictSet w "apiKey" api_key) "secret" secret
  refine ⟨?_, hak, hsk, ?_⟩
  · intro h
    unfold signed_request
    rcases h with h | h <;> rw [h] <;> simp
  · unfold signed_request
    rw [hak, hsk]
    exact ⟨_, rfl⟩

theorem signed_request_credential_gate_witness :
    (signed_request [] (fun _ => PyVal.none) "GET" "/api/v3/account" [] 5 =
      (.error "Api key and secret must be set", [], [])) ∧
    ∃ req, signed_request (set [] "key" "sec") (fun _ => PyVal.none) "GET"
        "/api/v3/account" [] 5 =
      (.ok ((fun _ => PyVal.none) req), set [] "key" "sec", [req]) :=
  ⟨(signed_request_credential_gate [] (fun _ => PyVal.none) "GET" "/api/v3/account"
      [] 5 "key" "sec").1 (Or.inl (by decide)),
   (signed_request_credential_gate [] (fun _ => PyVal.none) "GET" "/api/v3/account"
      [] 5 "key" "sec").2.2.2⟩

/-- **C3.** The parameter ordering of the signed query string is
deterministic and equals the lexicographic sort of the input keys: the
key sequence of the sorted items is sorted and a permutation of the input
keys, and for any timestamp the signed query is the (timestamp-free)
encoded parameter string followed by the timestamp and signature fields,
so two calls with the same mapping agree up to the timestamp field. -/
theorem signed_query_order_deterministic (params : Dict) :
    ((pySorted params).map Prod.fst).Pairwise (· ≤ ·) ∧
    ((pySorted params).map Prod.fst).Perm (params.map Prod.fst) ∧
    ∀ secret t, ∃ sig, signedQuery secret params t =
      urlencode (pySorted params) ++ "&timestamp=" ++ toString t ++
        "&signature=" ++ sig := by
  refine ⟨?_, ?_, ?_⟩
  · exact List.Pairwise.map Prod.fst (fun a b h => pairLe_fst h)
      (List.sorted_insertionSort pairLe params)
  · exact (List.perm_insertionSort pairLe params).map Prod.fst
  · intro secret t
    exact ⟨_, rfl⟩

/-- A fixed 8-decimal-place string: some prefix, a dot, then exactly eight
decimal digits. -/
def IsFixed8 (s : String) : Prop :=
  ∃ a b : String, s = a ++ "." ++ b ∧ b.length = 8 ∧ b.data.all Char.isDigit = true

theorem digitChar_isDigit (d : Nat) (h : d < 10) :
    (Nat.digitChar d).isDigit = true := by
  interval_cases d <;> decide

theorem digitOf_isDigit (m i : Nat) : (digitOf m i).isDigit = true :=
  digitChar_isDigit _ (Nat.mod_lt _ (by norm_num))

theorem frac8_isFixed (m : Nat) :
    (frac8 m).length = 8 ∧ (frac8 m).data.all Char.isDigit = true := by
  unfold frac8
  refine ⟨rfl, ?_⟩
  simp [List.all, digitOf_isDigit]

/-- **C5 counterexample.** The claim fails at the input `float("inf")`:
`format_number` maps it to `"inf"`, which is not a fixed 8-decimal-place
string. -/
theorem format_number_inf_counterexample :
    format_number (.float .inf) = "inf" ∧
    ¬ IsFixed8 (format_number (.float .inf)) := by
  refine ⟨rfl, ?_⟩
  rw [show format_number (.float .inf) = "inf" from rfl]
  rintro ⟨a, b, hab, -, -⟩
  have hd : ("inf" : String).data = a.data ++ ('.' :: b.data) := by
    rw [hab]
    simp [String.data_append]
  have hmem : '.' ∈ ("inf" : String).data := by
    rw [hd]
    exact List.mem_append_right _ (List.mem_cons_self _ _)
  revert hmem
  decide

/-- **C5 amended.** `format_number` returns a fixed 8-decimal-place string
on every finite float (e.g. `1.0` to `"1.00000000"`) — the non-finite
floats (`inf`, `-inf`, `nan`) are formatted as their plain names instead —
and returns the plain string form unchanged on non-floats (e.g. `5` to
`"5"`, strings as-is). -/
theorem format_number_fixed8_amended :
    (∀ (neg : Bool) (mag : Rat), IsFixed8 (format_number (.float (.finite neg mag)))) ∧
    format_number (.float (.finite false 1)) = "1.00000000" ∧
    format_number (.int 5) = "5" ∧
    (∀ n : Int, format_number (.int n) = toString n) ∧
    (∀ s : String, format_number (.str s) = s) := by
  refine ⟨?_, by decide, by decide, fun n => rfl, fun s => rfl⟩
  intro neg mag
  exact ⟨(if neg then "-" else "") ++ toString (rne8 mag / 100000000),
    frac8 (rne8 mag % 100000000), rfl, (frac8_isFixed _).1, (frac8_isFixed _).2⟩

/-- **C6.** The signed dispatcher returns the parsed response as-is even
when it carries the exchange's error indicator, while the `balances`
call-site inspects it and, whenever the response mapping contains the key
`msg`, raises a domain error carrying the exchange's message instead of
returning. -/
theorem error_payload_dispatcher_vs_balances (w : Dict) (net : HttpRequest → PyVal)
    (t : Nat) (kvs : List (PyVal × PyVal)) (msgVal : PyVal)
    (hk : dictHasKey w "apiKey" = true) (hs : dictHasKey w "secret" = true)
    (hnet : ∀ r, net r = PyVal.dict kvs)
    (hmsg : pyLookup kvs (.str "msg") = some msgVal) :
    (signed_request w net "GET" "/api/v3/account" [] t).1 = .ok (.dict kvs) ∧
    balances w net t = .error ("Error from exchange: " ++ pyStr msgVal) := by
  have hreq : (signed_request w net "GET" "/api/v3/account" [] t).1 = .ok (.dict kvs) := by
    unfold signed_request
    rw [hk, hs]
    simp [hnet]
  refine ⟨hreq, ?_⟩
  have hc : pyContains (.dict kvs) (.str "msg") = true := pyLookup_any hmsg
  have hg : pyGetItem (PyVal.dict kvs) (.str "msg") = .ok msgVal := by
    simp [pyGetItem, hmsg]
  unfold balances
  rw [hreq]
  simp [exbind_ok, hc, hg]

theorem error_payload_dispatcher_vs_balances_witness :
    (signed_request [("apiKey", "k"), ("secret", "s")]
        (fun _ => PyVal.dict [(.str "msg", .str "oops")]) "GET" "/api/v3/account" [] 3).1 =
      .ok (.dict [(.str "msg", .str "oops")]) ∧
    balances [("apiKey", "k"), ("secret", "s")]
        (fun _ => PyVal.dict [(.str "msg", .str "oops")]) 3 =
      .error ("Error from exchange: " ++ pyStr (.str "oops")) :=
  error_payload_dispatcher_vs_balances [("apiKey", "k"), ("secret", "s")]
    (fun _ => PyVal.dict [(.str "msg", .str "oops")]) 3
    [(.str "msg", .str "oops")] (.str "oops")
    (by decide) (by decide) (fun r => rfl) (by rfl)

theorem exList_unpack2_enc (l : List (PyVal × PyVal)) :
    exList unpack2 (l.map fun pq => PyVal.list [pq.1, pq.2]) = .ok l := by
  induction l with
  | nil => rfl
  | cons p ps ih =>
    simp only [List.map_cons, exList, unpack2, ih, Except.bind]
    rfl

/-- **C7.** For every depth response whose `bids` and `asks` fields are
lists of `[price, quantity]` pairs, `depth` returns a mapping with exactly
the two keys `bids` and `asks`, each holding the flat price-to-quantity
dict built from the corresponding pair list. -/
theorem depth_reshapes_book (net : HttpRequest → PyVal) (symbol : String)
    (kwargs : Dict) (data : PyVal) (bps aps : List (PyVal × PyVal))
    (hnet : ∀ r, net r = data)
    (hb : pyGetItem data (.str "bids") =
      .ok (.list (bps.map fun pq => PyVal.list [pq.1, pq.2])))
    (ha : pyGetItem data (.str "asks") =
      .ok (.list (aps.map fun pq => PyVal.list [pq.1, pq.2]))) :
    depth net symbol kwargs =
      .ok (.dict [(.str "bids", .dict (pyDictOfPairs bps)),
        (.str "asks", .dict (pyDictOfPairs aps))]) := by
  simp only [depth, request, hnet, hb, ha, exbind_ok, sideMap, exList_unpack2_enc]
  rfl

theorem depth_reshapes_book_witness :
    depth (fun _ => PyVal.dict
        [(.str "lastUpdateId", .int 33),
         (.str "bids", .list [.list [.str "0.1", .str "2"], .list [.str "0.2", .str "3"]]),
         (.str "asks", .list [.list [.str "0.5", .str "7"]])]) "LTCBTC" [] =
      .ok (.dict [(.str "bids", .dict (pyDictOfPairs
          [(.str "0.1", .str "2"), (.str "0.2", .str "3")])),
        (.str "asks", .dict (pyDictOfPairs [(.str "0.5", .str "7")]))]) :=
  depth_reshapes_book _ "LTCBTC" []
    (PyVal.dict
      [(.str "lastUpdateId", .int 33),
       (.str "bids", .list [.list [.str "0.1", .str "2"], .list [.str "0.2", .str "3"]]),
       (.str "asks", .list [.list [.str "0.5", .str "7"]])])
    [(.str "0.1", .str "2"), (.str "0.2", .str "3")] [(.str "0.5", .str "7")]
    (fun r => rfl) (by rfl) (by rfl)

/-- **C10.** For every response mapping containing neither `msg` nor
`balances`, `balances` returns the empty mapping without raising: the
missing `balances` field is treated as an empty balance list. -/
theorem balances_missing_fields_empty (w : Dict) (net : HttpRequest → PyVal)
    (t : Nat) (kvs : List (PyVal × PyVal))
    (hk : dictHasKey w "apiKey" = true) (hs : dictHasKey w "secret" = true)
    (hnet : ∀ r, net r = PyVal.dict kvs)
    (hmsg : pyContains (.dict kvs) (.str "msg") = false)
    (hbal : pyLookup kvs (.str "balances") = Option.none) :
    balances w net t = .ok (.dict []) := by
  have hreq : (signed_request w net "GET" "/api/v3/account" [] t).1 = .ok (.dict kvs) := by
    unfold signed_request
    rw [hk, hs]
    simp [hnet]
  have hg : pyGetM (PyVal.dict kvs) (.str "balances") (.list []) = .ok (.list []) := by
    simp [pyGetM, hbal]
  unfold balances
  rw [hreq]
  simp [exbind_ok, hmsg, hg, buildBalances, exList, pyDictOfPairs]

theorem balances_missing_fields_empty_witness :
    balances [("apiKey", "k"), ("secret", "s")]
        (fun _ => PyVal.dict [(.str "makerCommission", .int 15)]) 9 =
      .ok (.dict []) :=
  balances_missing_fields_empty [("apiKey", "k"), ("secret", "s")]
    (fun _ => PyVal.dict [(.str "makerCommission", .int 15)]) 9
    [(.str "makerCommission", .int 15)]
    (by decide) (by decide) (fun r => rfl) (by rfl) (by rfl)

end BinanceSpec
